import Mathlib

/-!
Verification development for the dd-playwright-open-any-website-debug
repository (a Playwright-driven network capture tool with DataDome focus).

The repository ships several largely duplicative one-file app variants:
  * `app.js` (first variant): context-level response listener, scope matcher
    `matchesScope` with `DD_HOSTS` override, `suffixBase`/`sameDomain`,
    `getDataDomeSetCookies` with a comma-aware Set-Cookie splitter, and a
    second variant in the same file with `splitSetCookieValue` /
    `parseSetCookie` / `extractDDDetailed`.
  * `part_001`: the request-creates / response-merges correlator
    (`page.on('request')` / `page.on('response')` with `byRequestId`), the
    narrative printer with `idxToNext` / `inlinedAfter403`, `toRegistrable`,
    `isOnTargetOrChallenge`, `challengeTagForURL`, `isStaticAsset`.
  * `part_002`: context-level response listener assigning `idx = ++counter`
    at response arrival, `includeThis` creation filter with the
    geo.captcha-delivery.com override, scope filtering + sort by `idx`.

All JavaScript strings are modelled as Lean `String`; character-level
operations work on `String.toList`.  Machine integers do not occur (counters
and indices are unbounded in JS for all reachable sizes), so `Nat` is used.
-/

/-! ## Generic string helpers (JS semantics) -/

/-- ASCII lower-casing of a character, as `String.prototype.toLowerCase`
behaves on the ASCII range (the only range the repo's inputs use). -/
def asciiLower (c : Char) : Char :=
  if 'A' ≤ c ∧ c ≤ 'Z' then Char.ofNat (c.toNat + 32) else c

/-- ASCII upper-casing of a character, as `String.prototype.toUpperCase`
behaves on the ASCII range. -/
def asciiUpper (c : Char) : Char :=
  if 'a' ≤ c ∧ c ≤ 'z' then Char.ofNat (c.toNat - 32) else c

/-- Lower-cased character list of a string. -/
def lcList (s : String) : List Char := s.toList.map asciiLower

/-- Lower-cased string (`s.toLowerCase()`). -/
def lowerStr (s : String) : String := String.mk (lcList s)

/-- Upper-cased string (`s.toUpperCase()`). -/
def toUpperStr (s : String) : String := String.mk (s.toList.map asciiUpper)

/-- Whitespace characters `String.prototype.trim` removes (the ones that can
occur in the repo's header strings). -/
def isJsWs (c : Char) : Bool := c == ' ' || c == '\t' || c == '\n' || c == '\r'

/-- JavaScript `String.prototype.trim`. -/
def jsTrim (s : String) : String :=
  String.mk (((s.toList.dropWhile isJsWs).reverse.dropWhile isJsWs).reverse)

/-- Test whether `s` starts with `pat` (JS `String.prototype.startsWith`). -/
def strStartsWith (s pat : String) : Bool :=
  s.toList.take pat.toList.length == pat.toList

/-- Case-insensitive variant of `strStartsWith`, for `/^.../i` regex tests. -/
def startsWithCI (s pat : String) : Bool :=
  (lcList s).take (lcList pat).length == (lcList pat)

/-- Test whether the character list `s` ends with `pat`
(JS `String.prototype.endsWith` on the underlying characters). -/
def listEndsWith (s pat : List Char) : Bool :=
  s.drop (s.length - pat.length) == pat

/-- JavaScript `String.prototype.endsWith`. -/
def strEndsWith (s pat : String) : Bool := listEndsWith s.toList pat.toList

/-- Substring test on character lists (semantics of `RegExp.test` with a
literal pattern, no anchors). -/
def listHasSubstr (pat : List Char) : List Char → Bool
  | [] => pat.isEmpty
  | c :: rest => ((c :: rest).take pat.length == pat) || listHasSubstr pat rest

/-- Case-insensitive substring test, for `/datadome=/i.test(s)`. -/
def hasSubstrCI (s pat : String) : Bool := listHasSubstr (lcList pat) (lcList s)

/-! ## URL model

The repo parses URLs with WHATWG `new URL(...)` (via `node:url` or the
global); parse failures are caught and turned into sentinel results.  The
model below covers hierarchical `scheme://authority/path?query#fragment`
URLs, which is the shape of every URL the browser event stream delivers.
`new URL` lower-cases the host and defaults an empty path to `/`. -/

structure UrlParts where
  scheme : String
  host : String
  pathname : String
deriving Repr, DecidableEq

def isAlphaCh (c : Char) : Bool :=
  ('a' ≤ c && c ≤ 'z') || ('A' ≤ c && c ≤ 'Z')

def isSchemeCh (c : Char) : Bool :=
  isAlphaCh c || ('0' ≤ c && c ≤ '9') || c == '+' || c == '-' || c == '.'

/-- Split a character list at the first occurrence of `://`, returning the
scheme characters and the remainder, or `none` when `://` does not occur. -/
def splitSchemeSep : List Char → Option (List Char × List Char)
  | ':' :: '/' :: '/' :: rest => some ([], rest)
  | c :: rest =>
    match splitSchemeSep rest with
    | some (a, b) => some (c :: a, b)
    | none => none
  | [] => none

def schemeOk : List Char → Bool
  | [] => false
  | c :: rest => isAlphaCh c && rest.all isSchemeCh

def notAuthorityEnd (c : Char) : Bool := !(c == '/' || c == '?' || c == '#')

/-- Drop the userinfo part of an authority (everything up to the last `@`),
as WHATWG URL parsing does before producing `host`. -/
def afterLastAt (cs : List Char) : List Char :=
  (cs.reverse.takeWhile (fun c => !(c == '@'))).reverse

/-- Model of `new URL(s)`: `none` models the constructor throwing. -/
def parseURL (s : String) : Option UrlParts :=
  match splitSchemeSep s.toList with
  | none => none
  | some (schemeCs, restCs) =>
    if schemeOk schemeCs then
      let auth := restCs.takeWhile notAuthorityEnd
      let after := restCs.dropWhile notAuthorityEnd
      if auth.isEmpty then none
      else
        let path : List Char :=
          match after with
          | '/' :: _ => after.takeWhile (fun c => !(c == '?' || c == '#'))
          | _ => ['/']
        some { scheme := String.mk (schemeCs.map asciiLower),
               host := String.mk ((afterLastAt auth).map asciiLower),
               pathname := String.mk path }
    else none

/-- The `hostname` property: `host` without the `:port` suffix. -/
def hostnameOf (p : UrlParts) : String :=
  String.mk (p.host.toList.takeWhile (fun c => !(c == ':')))

/-! ## Static-asset extension filter

The three variants share one extension alternation; they differ in the
boundary: `app.js` uses `(\?|#|$)`, `part_001` uses `(\?|$)` and applies the
regex to `pathname`, `part_002` uses `$` and applies it to `pathname` (or,
when URL parsing throws, to the raw input string). -/

def staticExts : List String :=
  ["avi", "flv", "mka", "mkv", "mov", "mp4", "mpeg", "mpg", "mp3", "flac",
   "ogg", "ogm", "opus", "wav", "webm", "webp", "bmp", "gif", "ico", "jpeg",
   "jpg", "png", "svg", "svgz", "swf", "eot", "otf", "ttf", "woff", "woff2",
   "css", "less", "js", "map"]

/-- Boundary `(\?|$)`: a `?` or the end of the string. -/
def extBoundaryQ : List Char → Bool
  | [] => true
  | '?' :: _ => true
  | _ => false

/-- Boundary `$`: only the end of the string. -/
def extBoundaryEnd : List Char → Bool
  | [] => true
  | _ => false

/-- Does `\.(ext1|ext2|...)B` match at the head of `cs` (for boundary `B`)? -/
def dotExtAt (boundary : List Char → Bool) : List Char → Bool
  | '.' :: rest =>
    staticExts.any (fun e =>
      rest.take e.toList.length == e.toList && boundary (rest.drop e.toList.length))
  | _ => false

/-- Unanchored regex search for `\.(ext...)B` anywhere in `cs`. -/
def searchExt (boundary : List Char → Bool) : List Char → Bool
  | [] => false
  | c :: rest => dotExtAt boundary (c :: rest) || searchExt boundary rest

/-- part_001 `isStaticAsset`: `EXTENSION_FILTER_RE` (case-insensitive, with
`(\?|$)` boundary) tested against `new URL(u).pathname`; a parse failure is
caught and yields `false`. -/
def isStaticAsset1 (u : String) : Bool :=
  match parseURL u with
  | some p => searchExt extBoundaryQ (lcList p.pathname)
  | none => false

/-- part_002 `STATIC_EXT_RE` (boundary `$`) tested against a bare string. -/
def endExtTest (s : String) : Bool := searchExt extBoundaryEnd (lcList s)

/-- part_002 `isStaticAsset`: the regex is tested against `pathname`; when
`new URL` throws it is tested against the raw input string instead. -/
def isStaticAsset2 (u : String) : Bool :=
  match parseURL u with
  | some p => endExtTest p.pathname
  | none => endExtTest u

/-! ## app.js classifier and scope matcher -/

/-- app.js `DD_HOSTS`: DataDome / challenge related hosts, always included. -/
def ddHosts : List String :=
  ["geo.captcha-delivery.com", "dd.prod.captcha-delivery.com", "dd.immoscout24.ch"]

/-- app.js `hostOf`: `new URL(u).host`, or `""` when parsing throws. -/
def hostOf (u : String) : String :=
  match parseURL u with
  | some p => p.host
  | none => ""

/-- app.js `classifyDD`: labels geo.captcha-delivery.com URLs by path prefix;
returns `null` (here `none`) for other hosts and for unparseable URLs. -/
def classifyDD (u : String) : Option String :=
  match parseURL u with
  | none => none
  | some p =>
    if hostnameOf p != "geo.captcha-delivery.com" then none
    else if strStartsWith p.pathname "/captcha" then some "CAPTCHA/BLOCK"
    else if strStartsWith p.pathname "/interstitial" then some "Device Check"
    else some "Challenge"

/-- Split a character list on every occurrence of a separator character
(JS `String.prototype.split` with a one-character separator). -/
def splitOnChar (sep : Char) : List Char → List (List Char)
  | [] => [[]]
  | c :: rest =>
    let r := splitOnChar sep rest
    if c == sep then [] :: r
    else
      match r with
      | [] => [[c]]
      | h :: t => (c :: h) :: t

/-- String-level wrapper around `splitOnChar`. -/
def splitStr (sep : Char) (s : String) : List String :=
  (splitOnChar sep s.toList).map String.mk

/-- Join strings with a separator (JS `Array.prototype.join`). -/
def joinWith (sep : String) : List String → String
  | [] => ""
  | [x] => x
  | x :: y :: xs => x ++ sep ++ joinWith sep (y :: xs)

/-- app.js `suffixBase`: the last two dot-separated labels of a host (the
whole host when it has fewer than two labels). -/
def suffixBase (host : String) : String :=
  let parts := splitStr '.' host
  if parts.length < 2 then host
  else joinWith "." (parts.drop (parts.length - 2))

/-- app.js `sameDomain`: `uHost === baseHost || uHost.endsWith("." + baseHost)`. -/
def sameDomain (uHost baseHost : String) : Bool :=
  uHost == baseHost || strEndsWith uHost ("." ++ baseHost)

/-- app.js `matchesScope` (closure over `scopeIdx` and `baseHost`):
DataDome hosts are always in scope; otherwise scope 2 is any origin,
scope 0 is same-domain, and every other index is cross-origin. -/
def matchesScope (scopeIdx : Nat) (baseHost : String) (u : String) : Bool :=
  let h := hostOf u
  if ddHosts.contains h then true
  else if scopeIdx == 2 then true
  else if scopeIdx == 0 then sameDomain h baseHost
  else !(sameDomain h baseHost)


/-! ## part_001: registrable domain, challenge tags, correlator -/

/-- part_001 `CHALLENGE_HOSTS`. -/
def challengeHostsList : List String :=
  ["captcha-delivery.com", "geo.captcha-delivery.com"]

/-- Modelled from the spec: part_001's `toRegistrable` delegates to the
external `tldts` dependency (`parse(hostname).domain`, falling back to the
hostname itself when no registrable domain is found).  The dependency is not
part of this repository; it is modelled as the last two dot-separated labels
of the hostname — the registrable domain for hosts whose public suffix is a
single label, which covers every host the development evaluates — with the
hostname itself as fallback when it has fewer than two labels. -/
def toRegistrable (hostname : String) : String :=
  let parts := splitStr '.' hostname
  if parts.length < 2 then hostname
  else joinWith "." (parts.drop (parts.length - 2))

/-- part_001 `isOnTargetOrChallenge`: the host's registrable domain ends with
the target domain, or with one of the challenge hosts. -/
def isOnTargetOrChallenge (host targetDomain : String) : Bool :=
  if host == "" then false
  else
    let reg := toRegistrable host
    strEndsWith reg targetDomain || challengeHostsList.any (fun ch => strEndsWith reg ch)

/-- part_001 `challengeTagForURL`: `/^\/interstitial\/?/i` maps to
"Device Check", `/^\/captca\/?/i` or `/^\/captcha\/?/i` to "CAPTCHA/BLOCK";
other paths, other hosts with empty hostname, and unparseable URLs map to
`null`.  (With a trailing optional `\/?` and no end anchor, each regex test
is equivalent to a case-insensitive prefix test.) -/
def challengeTagForURL (u : String) : Option String :=
  match parseURL u with
  | none => none
  | some p =>
    if hostnameOf p == "" then none
    else if startsWithCI p.pathname "/interstitial" then some "Device Check"
    else if startsWithCI p.pathname "/captca" || startsWithCI p.pathname "/captcha" then
      some "CAPTCHA/BLOCK"
    else none

/-- Browser network events as part_001's `page.on('request')` /
`page.on('response')` listeners observe them: `reqId` models the identity of
the Playwright `request` object that keys `byRequestId` and that a response
event carries via `response.request()`. -/
inductive PwEvent where
  | request (reqId : Nat) (url : String) (resourceType : String) (method : String) (ts : Nat)
  | response (reqId : Nat) (status : Nat) (headers : List (String × String))
deriving Repr, DecidableEq

/-- One element of part_001's `captured` array. -/
structure Exchange where
  ts : Nat
  method : String
  url : String
  status : Option Nat
  resourceType : String
  resHeaders : List (String × String)
  tag : Option String
  isTarget : Bool
  hostname : String
deriving Repr, DecidableEq

/-- part_001's correlator state: the `captured` array and the `byRequestId`
map (association list, most recent binding first, as `Map.set`/`Map.get`
behave for our single-binding-per-request usage). -/
structure CorrState where
  captured : List Exchange
  byRequestId : List (Nat × Nat)
deriving Repr, DecidableEq

def corrInit : CorrState := { captured := [], byRequestId := [] }

/-- The `document`/`xhr`/`fetch` resource-type gate shared by all variants. -/
def typeAllowed (rt : String) : Bool :=
  rt == "document" || rt == "xhr" || rt == "fetch"

def lookupReqId : List (Nat × Nat) → Nat → Option Nat
  | [], _ => none
  | (a, b) :: rest, k => if a == k then some b else lookupReqId rest k

/-- part_001 `page.on('request')` handler: hostname is computed first (an
unparseable URL throws and the whole event is dropped by the surrounding
`try`), then non-document/xhr/fetch types and static assets are discarded;
otherwise an Exchange with unset status is appended and registered in
`byRequestId`.  (`initialDocumentRequest` is bookkeeping for the separate
"initial request" section and does not affect `captured`; it is omitted.) -/
def onRequestEvent (targetDomain : String) (st : CorrState)
    (reqId : Nat) (url rt method : String) (ts : Nat) : CorrState :=
  match parseURL url with
  | none => st
  | some p =>
    if !typeAllowed rt then st
    else if isStaticAsset1 url then st
    else
      let entry : Exchange :=
        { ts := ts, method := method, url := url, status := none,
          resourceType := toUpperStr rt, resHeaders := [],
          tag := challengeTagForURL url,
          isTarget := isOnTargetOrChallenge (hostnameOf p) targetDomain,
          hostname := hostnameOf p }
      { captured := st.captured ++ [entry],
        byRequestId := (reqId, st.captured.length) :: st.byRequestId }

/-- part_001 `page.on('response')` handler: look the request up in
`byRequestId`; if absent, ignore the event; otherwise store the response
headers and status on the matched Exchange.  (The `initialChain` array only
feeds the separate "initial request & redirects" section and the unused
`main403Idx`; it does not affect `captured` and is omitted.) -/
def onResponseEvent (st : CorrState) (reqId : Nat) (status : Nat)
    (headers : List (String × String)) : CorrState :=
  match lookupReqId st.byRequestId reqId with
  | none => st
  | some idx =>
    match st.captured[idx]? with
    | none => st
    | some e =>
      { st with captured :=
          st.captured.set idx { e with status := some status, resHeaders := headers } }

def corrStep (targetDomain : String) (st : CorrState) : PwEvent → CorrState
  | .request id url rt method ts => onRequestEvent targetDomain st id url rt method ts
  | .response id status headers => onResponseEvent st id status headers

/-- Run part_001's correlator over an event stream (the single-threaded
event loop dispatches the two listeners one event at a time). -/
def runCorr (targetDomain : String) (evs : List PwEvent) : CorrState :=
  evs.foldl (corrStep targetDomain) corrInit

/-- A request event that passes part_001's creation-time filter (URL parses,
resource type is document/xhr/fetch, URL is not a static asset); response
events never pass. -/
def reqPassesCreation : PwEvent → Bool
  | .request _ url rt _ _ => (parseURL url).isSome && typeAllowed rt && !isStaticAsset1 url
  | .response _ _ _ => false

/-! ## part_001: narrative over the frozen Exchange list

After capture ends, part_001 builds `list` (the captured Exchanges filtered
to target/challenge domains and Document/XHR/Fetch, sorted by timestamp) and
prints it.  The definitions below model the printing decisions over an
arbitrary frozen list: `idxToNext` maps each 403 DOCUMENT row to its
immediate successor, `inlinedAfter403` collects the successors, the print
loop skips inlined rows, and a printed 403 DOCUMENT row shows its successor
inline. -/

/-- The condition guarding both the `idxToNext` map construction and the
inline print: status 403 and resource type DOCUMENT. -/
def is403Doc (e : Exchange) : Bool :=
  e.status == some 403 && e.resourceType == "DOCUMENT"

/-- part_001's `idxToNext` map as a function: the entry for row `i`, when
`list[i]` is a 403 DOCUMENT and a next row exists. -/
def nextAfter403 (list : List Exchange) (i : Nat) : Option Nat :=
  match list[i]?, list[i + 1]? with
  | some e, some _ => if is403Doc e then some (i + 1) else none
  | _, _ => none

/-- part_001's `inlinedAfter403` set: every row registered as the "next
after 403" of some row. -/
def inlinedAfter403 (list : List Exchange) : List Nat :=
  (List.range list.length).filterMap (nextAfter403 list)

/-- Rows the full-capture loop prints as standalone numbered rows: all rows
except the ones in `inlinedAfter403`. -/
def printedRows (list : List Exchange) : List Nat :=
  (List.range list.length).filter (fun i => decide (i ∉ inlinedAfter403 list))

/-- Pairs `(i, j)` such that the full-capture loop prints row `j` inline
under row `i` ("Next request after 403"): `i` is itself printed, is a 403
DOCUMENT, and `idxToNext` has an entry for it. -/
def inlineShownPairs (list : List Exchange) : List (Nat × Nat) :=
  (printedRows list).filterMap (fun i =>
    match list[i]? with
    | some e => if is403Doc e then (nextAfter403 list i).map (fun j => (i, j)) else none
    | none => none)

/-! ## part_002: response-driven capture, scope filter, sort by idx -/

/-- Context-level events for part_002: its `context.on('request')` listener
only snapshots request bodies (which never reach `captured`), and its
`context.on('response')` listener creates the capture entries. -/
inductive CtxEvent where
  | request (url method : String) (postData : Option String)
  | response (url resourceType method : String) (status : Nat)
deriving Repr, DecidableEq

/-- One element of part_002's `captured` array (the fields the capture and
narrative decisions read; cookie/header snapshot fields are presentation
payload and are omitted). -/
structure Entry2 where
  idx : Nat
  rt : String
  method : String
  url : String
  status : Nat
deriving Repr, DecidableEq

structure Ctx2State where
  counter : Nat
  captured : List Entry2
deriving Repr, DecidableEq

def ctx2Init : Ctx2State := { counter := 0, captured := [] }

/-- part_002 `isDocXhrFetch`. -/
def isDocXhrFetch (rt : String) : Bool :=
  rt == "document" || rt == "xhr" || rt == "fetch"

/-- part_002 `isGeoCaptchaDelivery`: hostname equals the challenge host
(`false` when URL parsing throws). -/
def isGeoCaptchaDelivery (u : String) : Bool :=
  match parseURL u with
  | some p => hostnameOf p == "geo.captcha-delivery.com"
  | none => false

/-- part_002's create-time filter `includeThis`: document/xhr/fetch and not
a static asset — or, always, the geo.captcha-delivery.com challenge host. -/
def includeThis (rt u : String) : Bool :=
  (isDocXhrFetch rt && !isStaticAsset2 u) || isGeoCaptchaDelivery u

/-- part_002's listeners as one step function.  A response passing
`includeThis` is snapshotted with `idx = ++counter` — the index is assigned
at response-observation time.  Request events do not touch `captured`. -/
def step2 (st : Ctx2State) : CtxEvent → Ctx2State
  | .request _ _ _ => st
  | .response u rt m status =>
    if includeThis rt u then
      { counter := st.counter + 1,
        captured := st.captured ++
          [{ idx := st.counter + 1, rt := rt, method := m, url := u, status := status }] }
    else st

def run2 (evs : List CtxEvent) : Ctx2State := evs.foldl step2 ctx2Init

/-- part_002 `sameDomain`: exact host equality with the target host
(`false` when URL parsing throws). -/
def sameDomainP2 (u baseHost : String) : Bool :=
  match parseURL u with
  | some p => p.host == baseHost
  | none => false

/-- part_002 `crossOrigin`. -/
def crossOriginP2 (u baseHost : String) : Bool :=
  match parseURL u with
  | some p => p.host != baseHost
  | none => false

/-- The predicate of part_002's `filtered` pipeline: geo.captcha-delivery.com
always passes; otherwise the configured scope policy decides. -/
def scopeKeep (scopeIdx : Nat) (baseHost : String) (e : Entry2) : Bool :=
  if isGeoCaptchaDelivery e.url then true
  else if scopeIdx == 0 then sameDomainP2 e.url baseHost
  else if scopeIdx == 1 then crossOriginP2 e.url baseHost
  else true

/-- Insertion step for sorting by `idx`. -/
def insByIdx (e : Entry2) : List Entry2 → List Entry2
  | [] => [e]
  | x :: xs => if e.idx ≤ x.idx then e :: x :: xs else x :: insByIdx e xs

/-- Sort by ascending `idx` (the `sort((a,b) => a.idx - b.idx)` call; the
`idx` values of captured entries are unique, so every correct sorting
algorithm produces the same list). -/
def sortByIdx : List Entry2 → List Entry2
  | [] => []
  | x :: xs => insByIdx x (sortByIdx xs)

/-- part_002's `filtered`: scope-filter the captured entries, then sort by
`idx`.  Its order is the order in which the print loop emits the rows. -/
def filtered2 (scopeIdx : Nat) (baseHost : String) (captured : List Entry2) : List Entry2 :=
  sortByIdx (captured.filter (scopeKeep scopeIdx baseHost))

/-- Request-observed URLs of an event stream, in observation order. -/
def requestObservedUrls (evs : List CtxEvent) : List String :=
  evs.filterMap (fun ev =>
    match ev with
    | .request u _ _ => some u
    | .response _ _ _ _ => none)

/-! ## Cookie extractor

Spec §4.1's extractor is implemented across the variants: app.js (first
variant) `getDataDomeSetCookies` holds the comma-aware composite splitter
(`raw.split(/,(?=[^;]+?=)/g)`) and the `/datadome=/i` filter; app.js (second
variant) `parseSetCookie` / `extractDDDetailed` parse an individual
Set-Cookie string into a structured record and filter by cookie name. -/

/-- A parsed Set-Cookie record (`{name, value, attrs}` in the source; the
recognized attribute keys become fields, unrecognized ones land in `extra`
with `none` marking a boolean attribute). -/
structure SetCookieRec where
  name : String
  value : String
  domain : Option String := none
  path : Option String := none
  expires : Option String := none
  maxAge : Option String := none
  sameSite : Option String := none
  secure : Bool := false
  httpOnly : Bool := false
  extra : List (String × Option String) := []
deriving Repr, DecidableEq

/-- First index of a character in a character list (JS `indexOf`, with
`none` for the `-1` result). -/
def firstIdxOf (c : Char) : List Char → Option Nat
  | [] => none
  | x :: xs => if x == c then some 0 else (firstIdxOf c xs).map (· + 1)

/-- Update-or-append for the `extra` attribute map (JS object assignment). -/
def updateExtra (k : String) (v : Option String) :
    List (String × Option String) → List (String × Option String)
  | [] => [(k, v)]
  | (a, b) :: rest => if a == k then (a, v) :: rest else (a, b) :: updateExtra k v rest

/-- Process one `;`-separated attribute segment of a Set-Cookie string
(the loop body of `parseSetCookie`). -/
def applyAttrSeg (r : SetCookieRec) (p : String) : SetCookieRec :=
  let seg := jsTrim p
  if seg == "" then r
  else
    match firstIdxOf '=' seg.toList with
    | none =>
      let key := lowerStr seg
      if key == "secure" then { r with secure := true }
      else if key == "httponly" then { r with httpOnly := true }
      else { r with extra := updateExtra seg none r.extra }
    | some i =>
      let k := jsTrim (String.mk (seg.toList.take i))
      let v := jsTrim (String.mk (seg.toList.drop (i + 1)))
      let key := lowerStr k
      if key == "domain" then { r with domain := some v }
      else if key == "path" then { r with path := some v }
      else if key == "expires" then { r with expires := some v }
      else if key == "max-age" then { r with maxAge := some v }
      else if key == "samesite" then { r with sameSite := some v }
      else { r with extra := updateExtra k (some v) r.extra }

/-- app.js (second variant) `parseSetCookie`: split on `;`, take `name=value`
from the first segment (`null` when the segment is empty or has no `=`
before its second character, i.e. `indexOf('=') <= 0`), then fold the
remaining segments as attributes. -/
def parseSetCookie (raw0 : String) : Option SetCookieRec :=
  let raw := jsTrim raw0
  if raw = "" then none
  else
    match splitStr ';' raw with
    | [] => none
    | nv0 :: attrSegs =>
      let nv := jsTrim nv0
      match firstIdxOf '=' nv.toList with
      | none => none
      | some eq =>
        if eq = 0 then none
        else
          some (attrSegs.foldl applyAttrSeg
            { name := jsTrim (String.mk (nv.toList.take eq)),
              value := jsTrim (String.mk (nv.toList.drop (eq + 1))) })

/-- Case-insensitive test `/^datadome$/i` on a cookie name. -/
def isDDName (n : String) : Bool := lowerStr n == "datadome"

/-- app.js (second variant) `extractDDDetailed`: parse each candidate
Set-Cookie string and keep the records whose name is `datadome`. -/
def extractDDDetailed (setCookies : List String) : List SetCookieRec :=
  setCookies.filterMap (fun sc =>
    match parseSetCookie sc with
    | some p => if isDDName p.name then some p else none
    | none => none)

/-- Scanner for the lookahead body `[^;]+?=`: an `=` before any `;`
(after at least one character has been consumed). -/
def laScan : List Char → Bool
  | [] => false
  | c :: rest => if c == '=' then true else if c == ';' then false else laScan rest

/-- The lookahead `(?=[^;]+?=)` evaluated just after a comma: at least one
non-`;` character followed (within the `;`-free run) by an `=`. -/
def commaLookahead : List Char → Bool
  | [] => false
  | c :: rest => if c == ';' then false else laScan rest

def splitCAAux : List Char → List Char → List (List Char)
  | [], cur => [cur.reverse]
  | c :: rest, cur =>
    if c == ',' && commaLookahead rest then cur.reverse :: splitCAAux rest []
    else splitCAAux rest (c :: cur)

/-- app.js `raw.split(/,(?=[^;]+?=)/g)`: split a composite Set-Cookie header
string at every comma that is followed by an `=`-containing `;`-free run
(the scanner that is supposed to distinguish cookie boundaries from commas
inside date attributes). -/
def splitCommaAware (s : String) : List String :=
  (splitCAAux s.toList []).map String.mk

/-- app.js `getDataDomeSetCookies`, third fallback (string-valued
`headers()['set-cookie']`): comma-aware split, trim, keep the parts matching
`/datadome=/i`. -/
def getDataDomeSetCookiesFromHeaderString (raw : String) : List String :=
  ((splitCommaAware raw).map jsTrim).filter (fun p => hasSubstrCI p "datadome=")

/-- The composite-header extraction pipeline of spec §4.1: split the
composite value with the comma-aware scanner, then parse and name-filter the
candidate cookie strings into records. -/
def extractFromCompositeHeader (raw : String) : List SetCookieRec :=
  extractDDDetailed (getDataDomeSetCookiesFromHeaderString raw)

/-! ## Spec-side definitions and concrete fixtures for the claims -/

/-- Creation-time filter as claim C1 words it: type, static-asset, AND scope.
Follows the spec's words for the scope component, instantiated with the
in-scope notion the code itself computes for Exchanges
(`isOnTargetOrChallenge` on the request's hostname). -/
def reqPassesCreationWithScope (targetDomain : String) : PwEvent → Bool
  | .request _ url rt _ _ =>
    match parseURL url with
    | some p =>
      typeAllowed rt && !isStaticAsset1 url &&
        isOnTargetOrChallenge (hostnameOf p) targetDomain
    | none => false
  | .response _ _ _ => false

/-- Event stream with a single in-type, non-static, but out-of-scope request
(host `other-site.org`, target domain `example.com`). -/
def c1CexEvents : List PwEvent :=
  [.request 0 "https://other-site.org/page" "document" "GET" 1]

/-- Spec-side notion for claim C6: the URL host equals the base domain or is
a subdomain of it (some nonempty prefix followed by a dot). -/
def SameOrSubdomainOf (h base : String) : Prop :=
  h = base ∨ ∃ p : List Char, h.toList = p ++ ('.' :: base.toList)

/-- A 403 DOCUMENT Exchange on the target host. -/
def exTarget403 : Exchange :=
  { ts := 1, method := "GET", url := "https://www.example.com/", status := some 403,
    resourceType := "DOCUMENT", resHeaders := [], tag := none, isTarget := true,
    hostname := "www.example.com" }

/-- A 403 DOCUMENT Exchange on the challenge host (a blocked challenge page). -/
def exChal403 : Exchange :=
  { ts := 2, method := "GET", url := "https://geo.captcha-delivery.com/captcha/?initialCid=c",
    status := some 403, resourceType := "DOCUMENT", resHeaders := [],
    tag := some "CAPTCHA/BLOCK", isTarget := true,
    hostname := "geo.captcha-delivery.com" }

/-- A device-check Exchange on the challenge host. -/
def exDevCheck : Exchange :=
  { ts := 3, method := "GET", url := "https://geo.captcha-delivery.com/interstitial/?x=1",
    status := some 200, resourceType := "XHR", resHeaders := [],
    tag := some "Device Check", isTarget := true,
    hostname := "geo.captcha-delivery.com" }

/-- Frozen list in which the blocked Exchange at row 1 is itself inlined
under the 403 DOCUMENT at row 0, so its own follower at row 2 is displayed
nowhere. -/
def c3CexList : List Exchange := [exTarget403, exChal403, exDevCheck]

/-- Frozen list in which the blocked Exchange at row 0 is printed normally. -/
def c3WitnessList : List Exchange := [exTarget403, exDevCheck]

/-- part_002 event stream: two requests observed in order `a`, `b`, whose
responses arrive in reverse order `b`, `a`. -/
def c2Evs : List CtxEvent :=
  [.request "https://api.example.com/a" "GET" none,
   .request "https://api.example.com/b" "GET" none,
   .response "https://api.example.com/b" "xhr" "GET" 200,
   .response "https://api.example.com/a" "xhr" "GET" 200]

/-- Composite Set-Cookie header value: a `sessionid` cookie (with a comma in
its `Expires` date) followed by the target `datadome` cookie, whose own
comma-containing `Expires` is followed by further attributes. -/
def goodComposite : String :=
  "sessionid=abc123; Path=/; Expires=Thu, 01 Jan 2026 10:00:00 GMT, datadome=XyZ777; Domain=.example.com; Path=/; Expires=Fri, 02 Jan 2026 11:30:00 GMT; Secure; SameSite=Lax"

/-- Composite Set-Cookie header value in which the target `datadome` cookie
comes first and its comma-containing `Expires` attribute is the last
attribute before the next cookie. -/
def badComposite : String :=
  "datadome=XyZ777; Path=/; Expires=Fri, 02 Jan 2026 11:30:00 GMT, sessionid=abc123; Path=/"

/-! ## Helper lemmas -/

theorem listEndsWith_iff (s pat : List Char) :
    listEndsWith s pat = true ↔ ∃ p : List Char, s = p ++ pat := by
  unfold listEndsWith
  rw [beq_iff_eq]
  constructor
  · intro h
    exact ⟨s.take (s.length - pat.length), by
      conv_lhs => rw [← List.take_append_drop (s.length - pat.length) s]
      rw [h]⟩
  · rintro ⟨p, rfl⟩
    rw [List.length_append, Nat.add_sub_cancel, List.drop_left]

theorem length_captured_corrStep (td : String) (st : CorrState) (ev : PwEvent) :
    ((corrStep td st ev).captured).length =
      st.captured.length + (if reqPassesCreation ev then 1 else 0) := by
  cases ev with
  | request id url rt method ts =>
    cases hp : parseURL url with
    | none => simp [corrStep, onRequestEvent, reqPassesCreation, hp]
    | some p =>
      by_cases hrt : typeAllowed rt
      · by_cases hsa : isStaticAsset1 url
        · simp [corrStep, onRequestEvent, reqPassesCreation, hp, hrt, hsa]
        · simp [corrStep, onRequestEvent, reqPassesCreation, hp, hrt, hsa]
      · simp [corrStep, onRequestEvent, reqPassesCreation, hp, hrt]
  | response id status headers =>
    cases hl : lookupReqId st.byRequestId id with
    | none => simp [corrStep, onResponseEvent, reqPassesCreation, hl]
    | some idx =>
      cases hg : st.captured[idx]? with
      | none => simp [corrStep, onResponseEvent, reqPassesCreation, hl, hg]
      | some e =>
        simp [corrStep, onResponseEvent, reqPassesCreation, hl, hg, List.length_set]

theorem length_captured_foldl (td : String) (evs : List PwEvent) (st : CorrState) :
    ((evs.foldl (corrStep td) st).captured).length =
      st.captured.length + evs.countP reqPassesCreation := by
  induction evs generalizing st with
  | nil => simp
  | cons ev rest ih =>
    rw [List.foldl_cons, ih, length_captured_corrStep, List.countP_cons]
    by_cases h : reqPassesCreation ev
    · simp [h]; omega
    · simp [h]

/-! ## Claim C1 -/

/-- C1 (amended): for every sequence of request-observed and
response-observed events delivered in any interleaving, the length of
part_001's Exchange list equals the number of request events that passed the
type/static-asset filter applied at creation time (the scope classification
is recorded on the Exchange but not filtered on at creation); response
events are never counted, so a response event alone never creates an
Exchange. -/
theorem c1_exchange_count (targetDomain : String) (evs : List PwEvent) :
    ((runCorr targetDomain evs).captured).length = evs.countP reqPassesCreation := by
  unfold runCorr
  rw [length_captured_foldl]
  simp [corrInit]

/-- C1 counterexample: a single document request to an out-of-scope host
(neither target domain nor challenge host) creates an Exchange, so the list
length (1) differs from the number of requests passing the claimed
type/static-asset/scope filter (0). -/
theorem c1_counterexample :
    ((runCorr "example.com" c1CexEvents).captured).length = 1 ∧
    ((runCorr "example.com" c1CexEvents).captured).all (fun e => !e.isTarget) = true ∧
    List.countP (reqPassesCreationWithScope "example.com") c1CexEvents = 0 ∧
    (1 : Nat) ≠ 0 :=
  ⟨by decide, by decide, by decide, by decide⟩

/-! ## Claim C8 -/

/-- C8: a response event whose request has no entry in `byRequestId` (for
example browser-internal traffic whose request was never tracked) leaves the
correlator state exactly unchanged — no Exchange is created, none is
mutated, and the step function is total so nothing is raised. -/
theorem c8_unmatched_response_noop (targetDomain : String) (st : CorrState)
    (reqId status : Nat) (headers : List (String × String))
    (h : lookupReqId st.byRequestId reqId = none) :
    corrStep targetDomain st (.response reqId status headers) = st := by
  simp [corrStep, onResponseEvent, h]

/-- Witness for C8 at a concrete state and event. -/
theorem c8_unmatched_response_noop_witness :
    lookupReqId corrInit.byRequestId 7 = none ∧
    corrStep "example.com" corrInit (.response 7 200 []) = corrInit :=
  ⟨rfl, c8_unmatched_response_noop "example.com" corrInit 7 200 [] rfl⟩

/-! ## Claim C2 -/

theorem run2_counter_bound_pairwise (evs : List CtxEvent) (st : Ctx2State)
    (hAll : ∀ e ∈ st.captured, e.idx ≤ st.counter)
    (hPw : st.captured.Pairwise (fun a b => a.idx < b.idx)) :
    (∀ e ∈ (evs.foldl step2 st).captured, e.idx ≤ (evs.foldl step2 st).counter) ∧
    (evs.foldl step2 st).captured.Pairwise (fun a b => a.idx < b.idx) := by
  induction evs generalizing st with
  | nil => exact ⟨hAll, hPw⟩
  | cons ev rest ih =>
    rw [List.foldl_cons]
    cases ev with
    | request u m pd => exact ih st hAll hPw
    | response u rt m status =>
      by_cases hinc : includeThis rt u
      · simp only [step2, hinc, if_true]
        apply ih
        · intro e he
          simp only [List.mem_append, List.mem_singleton] at he
          rcases he with he | he
          · exact le_trans (hAll e he) (Nat.le_succ _)
          · rw [he]
        · rw [List.pairwise_append]
          refine ⟨hPw, List.pairwise_singleton _ _, ?_⟩
          intro a ha b hb
          rw [List.mem_singleton] at hb
          rw [hb]
          exact Nat.lt_succ_of_le (hAll a ha)
      · simp only [step2, hinc, if_false]
        exact ih st hAll hPw

theorem sortByIdx_of_pairwise (l : List Entry2)
    (h : l.Pairwise (fun a b => a.idx < b.idx)) : sortByIdx l = l := by
  induction l with
  | nil => rfl
  | cons x xs ih =>
    rw [sortByIdx, ih (List.Pairwise.of_cons h)]
    cases xs with
    | nil => rfl
    | cons y ys =>
      have hlt : x.idx < y.idx := (List.pairwise_cons.mp h).1 y (by simp)
      simp [insByIdx, Nat.le_of_lt hlt]

/-- C2 (amended): part_002 assigns sequence indices at response observation
(`idx = ++counter` in the response listener), so captured indices are unique
and strictly increasing in response-observed order, and the narrative's
`filtered` list — sorted by `idx` — presents entries in exactly that
response-observed order (the scope filter aside); request-observation order
does not determine the printed order. -/
theorem c2_idx_response_order (evs : List CtxEvent) (scopeIdx : Nat) (baseHost : String) :
    (run2 evs).captured.Pairwise (fun a b => a.idx < b.idx) ∧
    filtered2 scopeIdx baseHost (run2 evs).captured =
      (run2 evs).captured.filter (scopeKeep scopeIdx baseHost) := by
  have h := run2_counter_bound_pairwise evs ctx2Init (by simp [ctx2Init]) (by simp [ctx2Init])
  refine ⟨h.2, ?_⟩
  unfold filtered2
  exact sortByIdx_of_pairwise _ (h.2.filter _)

/-- C2 counterexample: requests are observed in order `a`, `b` but their
responses arrive in reverse order; the narrative prints `b` before `a`, so
the printed order is not the request-observation order. -/
theorem c2_counterexample :
    (filtered2 2 "api.example.com" (run2 c2Evs).captured).map (fun e => e.url) =
      ["https://api.example.com/b", "https://api.example.com/a"] ∧
    requestObservedUrls c2Evs =
      ["https://api.example.com/a", "https://api.example.com/b"] ∧
    (filtered2 2 "api.example.com" (run2 c2Evs).captured).map (fun e => e.url) ≠
      requestObservedUrls c2Evs :=
  ⟨by decide, by decide, by decide⟩

/-! ## Claim C3 -/

/-- C3 (amended): in a frozen Exchange list, when row `i` is a 403 DOCUMENT,
row `i+1` exists and is a challenge-host Exchange with a device-check path,
AND row `i` is itself printed (not inlined under an earlier 403), the
narrative shows row `i+1` inline under row `i` and does not print it as a
standalone numbered row. -/
theorem c3_inline_after_403 (list : List Exchange) (i : Nat) (e f : Exchange)
    (h1 : list[i]? = some e) (h2 : is403Doc e = true)
    (h3 : list[i + 1]? = some f)
    (h4 : f.hostname = "geo.captcha-delivery.com")
    (h5 : f.tag = some "Device Check")
    (h6 : i ∉ inlinedAfter403 list) :
    (i, i + 1) ∈ inlineShownPairs list ∧ (i + 1) ∉ printedRows list := by
  have hi : i < list.length := by
    by_contra hni
    rw [List.getElem?_eq_none (Nat.le_of_not_lt hni)] at h1
    exact Option.noConfusion h1
  have hnext : nextAfter403 list i = some (i + 1) := by
    unfold nextAfter403
    rw [h1, h3]
    simp [h2]
  have hinl : (i + 1) ∈ inlinedAfter403 list := by
    unfold inlinedAfter403
    exact List.mem_filterMap.mpr ⟨i, List.mem_range.mpr hi, hnext⟩
  have hip : i ∈ printedRows list := by
    unfold printedRows
    exact List.mem_filter.mpr ⟨List.mem_range.mpr hi, decide_eq_true h6⟩
  constructor
  · unfold inlineShownPairs
    refine List.mem_filterMap.mpr ⟨i, hip, ?_⟩
    rw [h1]
    simp [h2, hnext]
  · intro hmem
    unfold printedRows at hmem
    have hdec := (List.mem_filter.mp hmem).2
    rw [decide_eq_true_eq] at hdec
    exact hdec hinl

/-- Witness for C3 (amended) at the two-row list where the blocked Exchange
is printed normally. -/
theorem c3_inline_after_403_witness :
    (0, 1) ∈ inlineShownPairs c3WitnessList ∧ 1 ∉ printedRows c3WitnessList :=
  c3_inline_after_403 c3WitnessList 0 exTarget403 exDevCheck
    (by decide) (by decide) (by decide) (by decide) (by decide) (by decide)

/-- C3 counterexample: in `c3CexList` the blocked 403 DOCUMENT at row 1 is
itself inlined under the 403 at row 0, so its following device-check
Exchange at row 2 is neither shown inline under it nor printed as a
standalone row — the claim's conclusion fails even though its hypotheses
hold at rows 1 and 2. -/
theorem c3_counterexample :
    c3CexList[1]? = some exChal403 ∧ is403Doc exChal403 = true ∧
    c3CexList[2]? = some exDevCheck ∧
    exDevCheck.hostname = "geo.captcha-delivery.com" ∧
    exDevCheck.tag = some "Device Check" ∧
    ¬((1, 2) ∈ inlineShownPairs c3CexList ∧ 2 ∉ printedRows c3CexList) :=
  ⟨by decide, by decide, by decide, by decide, by decide, by decide⟩

/-! ## Claim C4 -/

/-- C4 (amended): for a composite Set-Cookie header value containing a
`datadome=` cookie among other cookies with comma-containing `Expires`
attributes, the extractor returns exactly one record for the target cookie
with the correct value and correctly parsed expiry PROVIDED no `=` occurs
between the target's date comma and the next `;` (e.g. the target cookie is
last in the composite with further attributes after its `Expires`); the
boundary scanner splits at any comma followed by an `=`-bearing `;`-free
run, so such commas inside date attributes do cause spurious splits in
general. -/
theorem c4_composite_roundtrip :
    (extractFromCompositeHeader goodComposite).map (fun r => r.name) = ["datadome"] ∧
    (extractFromCompositeHeader goodComposite).map (fun r => r.value) = ["XyZ777"] ∧
    (extractFromCompositeHeader goodComposite).map (fun r => r.expires) =
      [some "Fri, 02 Jan 2026 11:30:00 GMT"] ∧
    (extractFromCompositeHeader goodComposite).map (fun r => r.domain) =
      [some ".example.com"] ∧
    (extractFromCompositeHeader goodComposite).map (fun r => r.secure) = [true] :=
  ⟨by decide, by decide, by decide, by decide, by decide⟩

/-- C4 counterexample: when the target cookie's comma-containing `Expires`
is the last attribute before the next cookie, the comma-boundary scanner
splits inside the date, truncating the parsed expiry to `"Fri"` — the
extractor does not return a correctly parsed expiry, refuting the claim that
the comma never causes a spurious cookie-boundary split. -/
theorem c4_counterexample :
    splitCommaAware badComposite =
      ["datadome=XyZ777; Path=/; Expires=Fri",
       " 02 Jan 2026 11:30:00 GMT",
       " sessionid=abc123; Path=/"] ∧
    (extractFromCompositeHeader badComposite).map (fun r => (r.name, r.value, r.expires)) =
      [("datadome", "XyZ777", some "Fri")] ∧
    some "Fri" ≠ some "Fri, 02 Jan 2026 11:30:00 GMT" :=
  ⟨by decide, by decide, by decide⟩

/-! ## Claim C5 -/

/-- C5: every URL whose host is on the fixed challenge-host allowlist
`DD_HOSTS` is in scope under every scope policy — app.js `matchesScope`
returns `true` before consulting the policy. -/
theorem c5_challenge_host_always_in_scope (scopeIdx : Nat) (baseHost u : String)
    (h : ddHosts.contains (hostOf u) = true) :
    matchesScope scopeIdx baseHost u = true := by
  unfold matchesScope
  simp only [h, if_true]

/-- Witness for C5 at a concrete challenge-host URL under the same-domain
policy with an unrelated base host. -/
theorem c5_challenge_host_always_in_scope_witness :
    ddHosts.contains (hostOf "https://geo.captcha-delivery.com/interstitial/?x=1") = true ∧
    matchesScope 0 "example.com" "https://geo.captcha-delivery.com/interstitial/?x=1" = true :=
  ⟨by decide,
   c5_challenge_host_always_in_scope 0 "example.com"
     "https://geo.captcha-delivery.com/interstitial/?x=1" (by decide)⟩

/-! ## Claim C6 -/

theorem sameDomain_iff_sameOrSubdomain (h base : String) :
    sameDomain h base = true ↔ SameOrSubdomainOf h base := by
  unfold sameDomain SameOrSubdomainOf strEndsWith
  rw [Bool.or_eq_true, beq_iff_eq, listEndsWith_iff]
  have hdot : ("." ++ base).toList = '.' :: base.toList := by
    simp [String.toList, String.data_append]
  rw [hdot]

/-- C6: for every URL whose host is not on the challenge-host allowlist,
app.js's in-scope decision under the same-domain policy holds exactly when
the URL host equals the target's registrable base domain (computed by
`suffixBase` as the last two host labels) or is a subdomain of it; under the
cross-origin policy exactly when it is not; and under the any-origin policy
it always holds. -/
theorem c6_scope_policy_semantics (u targetHost : String)
    (hnc : ddHosts.contains (hostOf u) = false) :
    (matchesScope 0 (suffixBase targetHost) u = true ↔
      SameOrSubdomainOf (hostOf u) (suffixBase targetHost)) ∧
    (matchesScope 1 (suffixBase targetHost) u = true ↔
      ¬SameOrSubdomainOf (hostOf u) (suffixBase targetHost)) ∧
    matchesScope 2 (suffixBase targetHost) u = true := by
  refine ⟨?_, ?_, ?_⟩
  · unfold matchesScope
    simp only [hnc]
    simpa using sameDomain_iff_sameOrSubdomain (hostOf u) (suffixBase targetHost)
  · unfold matchesScope
    simp only [hnc]
    rw [← sameDomain_iff_sameOrSubdomain (hostOf u) (suffixBase targetHost)]
    simp
  · unfold matchesScope
    simp [hnc]

/-- Witness for C6 at a concrete subdomain URL and target host. -/
theorem c6_scope_policy_semantics_witness :
    ddHosts.contains (hostOf "https://shop.example.com/p?q=1") = false ∧
    (matchesScope 0 (suffixBase "www.example.com") "https://shop.example.com/p?q=1" = true ↔
      SameOrSubdomainOf (hostOf "https://shop.example.com/p?q=1")
        (suffixBase "www.example.com")) ∧
    matchesScope 2 (suffixBase "www.example.com") "https://shop.example.com/p?q=1" = true :=
  ⟨by decide,
   (c6_scope_policy_semantics "https://shop.example.com/p?q=1" "www.example.com" (by decide)).1,
   (c6_scope_policy_semantics "https://shop.example.com/p?q=1" "www.example.com" (by decide)).2.2⟩

/-! ## Claim C7 -/

theorem mem_insByIdx {a e : Entry2} {l : List Entry2} :
    a ∈ insByIdx e l ↔ a = e ∨ a ∈ l := by
  induction l with
  | nil => simp [insByIdx]
  | cons x xs ih =>
    by_cases hle : e.idx ≤ x.idx
    · simp [insByIdx, hle]
    · simp only [insByIdx, hle, if_false, List.mem_cons, ih]
      tauto

theorem mem_sortByIdx {a : Entry2} {l : List Entry2} :
    a ∈ sortByIdx l ↔ a ∈ l := by
  induction l with
  | nil => simp [sortByIdx]
  | cons x xs ih =>
    simp only [sortByIdx, mem_insByIdx, ih, List.mem_cons]

theorem run2_captured_includeThis (evs : List CtxEvent) (st : Ctx2State)
    (hInv : ∀ e ∈ st.captured, includeThis e.rt e.url = true) :
    ∀ e ∈ (evs.foldl step2 st).captured, includeThis e.rt e.url = true := by
  induction evs generalizing st with
  | nil => exact hInv
  | cons ev rest ih =>
    rw [List.foldl_cons]
    cases ev with
    | request u m pd => exact ih st hInv
    | response u rt m status =>
      by_cases hinc : includeThis rt u
      · simp only [step2, hinc, if_true]
        apply ih
        intro e he
        simp only [List.mem_append, List.mem_singleton] at he
        rcases he with he | he
        · exact hInv e he
        · rw [he]
          exact hinc
      · simp only [step2, hinc, if_false]
        exact ih st hInv

/-- C7: in part_002, for every event stream and every scope policy, each
printed capture row is either not a static asset or on the challenge host —
a static-asset URL off the challenge host never reaches the printed list,
even under any-origin scope.  Conversely, both gates admit challenge-host
static assets: the create-time filter `includeThis` accepts a
`geo.captcha-delivery.com` stylesheet for every resource type, and the scope
filter keeps it under every policy. -/
theorem c7_static_excluded_unless_challenge (scopeIdx : Nat) (baseHost : String)
    (evs : List CtxEvent) (rt m : String) (status : Nat) :
    ((filtered2 scopeIdx baseHost (run2 evs).captured).all
      (fun e => !isStaticAsset2 e.url || isGeoCaptchaDelivery e.url) = true) ∧
    includeThis rt "https://geo.captcha-delivery.com/tags.css" = true ∧
    scopeKeep scopeIdx baseHost
      { idx := 1, rt := rt, method := m,
        url := "https://geo.captcha-delivery.com/tags.css", status := status } = true := by
  have hgeo : isGeoCaptchaDelivery "https://geo.captcha-delivery.com/tags.css" = true := by
    decide
  refine ⟨?_, ?_, ?_⟩
  · rw [List.all_eq_true]
    intro e he
    have he2 : e ∈ (run2 evs).captured.filter (scopeKeep scopeIdx baseHost) :=
      mem_sortByIdx.mp he
    have he3 : e ∈ (run2 evs).captured := (List.mem_filter.mp he2).1
    have hinc := run2_captured_includeThis evs ctx2Init (by simp [ctx2Init]) e he3
    unfold includeThis at hinc
    cases hg : isGeoCaptchaDelivery e.url with
    | true => simp [hg]
    | false =>
      rw [hg, Bool.or_false, Bool.and_eq_true] at hinc
      simp [hinc.2, hg]
  · unfold includeThis
    rw [hgeo, Bool.or_true]
  · unfold scopeKeep
    simp only [hgeo, if_true]

/-! ## Claim C9 -/

theorem firstIdxOf_eq_none {c : Char} {l : List Char} (h : c ∉ l) :
    firstIdxOf c l = none := by
  induction l with
  | nil => rfl
  | cons x xs ih =>
    rw [firstIdxOf, if_neg, ih (fun hm => h (List.mem_cons_of_mem x hm)), Option.map_none']
    rw [beq_iff_eq]
    exact fun hx => h (hx ▸ List.mem_cons_self x xs)

/-- C9: the cookie extractor degrades gracefully — zero Set-Cookie header
values yield an empty record list rather than an error, and any candidate
cookie string whose name=value segment contains no `=` parses to nothing and
contributes no record wherever it occurs among the candidates. -/
theorem c9_extractor_edge_cases :
    extractDDDetailed [] = [] ∧
    ∀ (s : String) (pre post : List String),
      '=' ∉ (jsTrim ((splitStr ';' (jsTrim s)).headD "")).toList →
      parseSetCookie s = none ∧
      extractDDDetailed (pre ++ s :: post) = extractDDDetailed (pre ++ post) := by
  refine ⟨rfl, ?_⟩
  intro s pre post h
  have hparse : parseSetCookie s = none := by
    unfold parseSetCookie
    by_cases hraw : jsTrim s = ""
    · simp [hraw]
    · rw [if_neg hraw]
      cases hsplit : splitStr ';' (jsTrim s) with
      | nil => rfl
      | cons nv0 rest =>
        have h2 : '=' ∉ (jsTrim nv0).toList := by
          rw [hsplit] at h
          simpa using h
        simp only [firstIdxOf_eq_none h2]
  refine ⟨hparse, ?_⟩
  unfold extractDDDetailed
  rw [List.filterMap_append, List.filterMap_append, List.filterMap_cons]
  rw [hparse]

/-- Witness for C9 at a concrete malformed candidate among valid ones. -/
theorem c9_extractor_edge_cases_witness :
    '=' ∉ (jsTrim ((splitStr ';' (jsTrim "no-equals-here; Path=/")).headD "")).toList ∧
    parseSetCookie "no-equals-here; Path=/" = none ∧
    extractDDDetailed (["datadome=v1; Path=/"] ++ "no-equals-here; Path=/" :: []) =
      extractDDDetailed (["datadome=v1; Path=/"] ++ []) := by
  have h : '=' ∉ (jsTrim ((splitStr ';' (jsTrim "no-equals-here; Path=/")).headD "")).toList := by
    decide
  exact ⟨h,
    (c9_extractor_edge_cases.2 "no-equals-here; Path=/" ["datadome=v1; Path=/"] [] h).1,
    (c9_extractor_edge_cases.2 "no-equals-here; Path=/" ["datadome=v1; Path=/"] [] h).2⟩

/-! ## Claim C10 -/

/-- C10: the URL helper functions are total; on a string that does not parse
as a URL, `hostOf` returns the empty string, `classifyDD` returns `none`,
and `isStaticAsset2` falls back to testing the raw string against the
extension regex — in particular it returns `false` when the raw string has
no matching extension — so classifying a malformed URL produces a value
rather than aborting event processing. -/
theorem c10_url_helpers_total_on_bad_input (s : String) (h : parseURL s = none) :
    hostOf s = "" ∧ classifyDD s = none ∧ isStaticAsset2 s = endExtTest s ∧
    (endExtTest s = false → isStaticAsset2 s = false) := by
  refine ⟨?_, ?_, ?_, ?_⟩
  · unfold hostOf
    rw [h]
  · unfold classifyDD
    rw [h]
  · unfold isStaticAsset2
    rw [h]
  · intro he
    unfold isStaticAsset2
    rw [h, he]

/-- Witness for C10 at a concrete unparseable input. -/
theorem c10_url_helpers_total_on_bad_input_witness :
    parseURL "::::not a url::::" = none ∧
    hostOf "::::not a url::::" = "" ∧
    classifyDD "::::not a url::::" = none ∧
    isStaticAsset2 "::::not a url::::" = false := by
  have h : parseURL "::::not a url::::" = none := by decide
  have he : endExtTest "::::not a url::::" = false := by decide
  exact ⟨h, (c10_url_helpers_total_on_bad_input "::::not a url::::" h).1,
    (c10_url_helpers_total_on_bad_input "::::not a url::::" h).2.1,
    (c10_url_helpers_total_on_bad_input "::::not a url::::" h).2.2.2 he⟩
